import Mathlib

/-
Verification of the flickr_insert plugin (flickr_insert.py) against its
natural-language specification.

The Python code is shallowly embedded:
- Python dicts with string keys become association lists (Dict below);
  lookup matches the first binding, and the update operation re-binds a
  key at the front after erasing the old binding, so lookup behaves
  exactly like a Python dict.
- Values stored in a cache record are either ints or strings (CacheVal).
- Fallible code (KeyError, ValueError from int()) returns Option.
- random.randint(a, b) is modelled by an explicit parameter r together
  with the contract a <= r <= b (randint_bounds), since randint is
  inclusive on both ends.
- time.strftime rendering (epoch_to_str) depends on the ambient timezone,
  so it is passed in as an explicit function parameter e2s; no claim
  depends on the rendered text.
-/

/-- Python dict with string keys, modelled as an association list. -/
abbrev Dict (α : Type) := List (String × α)

/-- A value stored in a cache record: Python int or str. -/
inductive CacheVal : Type
  | intV : Int → CacheVal
  | strV : String → CacheVal
deriving DecidableEq

/-- Python d.get(k): value of the first binding of k, if any. -/
def dictGet {α : Type} (d : Dict α) (k : String) : Option α :=
  (d.find? (fun p => p.1 == k)).map (fun p => p.2)

/-- Python d[k] = v: re-bind k, keeping all other bindings. -/
def dictSet {α : Type} (d : Dict α) (k : String) (v : α) : Dict α :=
  (k, v) :: d.eraseP (fun p => p.1 == k)

/-- Python d1.update(d2): bind every pair of d2 into d1, in order. -/
def dictUpdate {α : Type} (d1 d2 : Dict α) : Dict α :=
  d2.foldl (fun a p => dictSet a p.1 p.2) d1

/-- Embeds make_int (flickr_insert.py line 497): an int passes through;
a string is stripped, the empty string becomes 0, and otherwise the
string is parsed as a decimal integer with an optional minus sign.
Returns none where Python int() would raise ValueError. -/
def make_int : CacheVal → Option Int
  | CacheVal.intV n => some n
  | CacheVal.strV s =>
      let t := s.trim
      if t = "" then some 0 else t.toInt?

/-- The FLICKR_INSERT_CACHE_CFG fields used by the decision engine
(flickr_insert.py lines 31-53). -/
structure CacheCfg : Type where
  key_field : String
  session_interval : Int
  recent_interval : Int
  refresh_interval : Int
  increment : Int
deriving DecidableEq

/-- Policy invariant stated by the spec, section 3:
0 <= increment <= recent_interval <= refresh_interval. -/
def policy_invariant (cfg : CacheCfg) : Prop :=
  0 ≤ cfg.increment ∧ cfg.increment ≤ cfg.recent_interval ∧
    cfg.recent_interval ≤ cfg.refresh_interval

/-- Contract of random.randint(recent_interval + increment,
refresh_interval): the draw r satisfies a <= r <= b, both bounds
inclusive (Python randint is inclusive on both ends). -/
def randint_bounds (cfg : CacheCfg) (r : Int) : Prop :=
  cfg.recent_interval + cfg.increment ≤ r ∧ r ≤ cfg.refresh_interval

/-- Embeds get_next_update_time (flickr_insert.py lines 420-423):
cur_time plus the random draw r, where r stands for the value returned
by random.randint(recent_interval + increment, refresh_interval). -/
def get_next_update_time (cur_time : Int) (cfg : CacheCfg) (r : Int) : Int :=
  cur_time + r

/-- Embeds get_cache_update_for_item (flickr_insert.py lines 378-417),
the cache-refresh decision engine. e2s stands for epoch_to_str, r for
the random draw consumed by get_next_update_time when the recency rule
fires. Returns none where the Python code would raise (a record whose
last_updated or next_update string does not parse as an int, or a
record lacking the key field). The translation is statement by
statement:
- line 389: cache_update starts as the dict with status ok;
- lines 392-394: the session short-circuit returns that dict as is;
- line 397: the key field is read (KeyError when absent);
- line 398: next_update_time defaults to cur_time + refresh_interval;
- lines 401-406: recency-or-unset sets status needs_update and draws a
  jittered next_update_time;
- lines 409-410: the deadline check sets status needs_update, leaving
  next_update_time as previously computed;
- lines 412-415: on needs_update the key, next_update and
  next_update_str fields are bound into the result dict. -/
def get_cache_update_for_item (e2s : Int → String) (cache_entry : Dict CacheVal)
    (cur_time : Int) (cfg : CacheCfg) (r : Int) : Option (Dict CacheVal) :=
  match make_int ((dictGet cache_entry "last_updated").getD (CacheVal.intV 0)) with
  | none => none
  | some item_last_updated =>
    if cur_time - item_last_updated < cfg.session_interval then
      some [("status", CacheVal.strV "ok")]
    else
      match dictGet cache_entry cfg.key_field with
      | none => none
      | some cache_id =>
        let step2 : Bool :=
          (cur_time - cfg.recent_interval < item_last_updated) || (item_last_updated == 0)
        let next_update_time : Int :=
          if step2 then get_next_update_time cur_time cfg r
          else cur_time + cfg.refresh_interval
        match make_int ((dictGet cache_entry "next_update").getD (CacheVal.intV (cur_time + 1))) with
        | none => none
        | some item_next_update =>
          let status : String :=
            if item_next_update ≤ cur_time then "needs_update"
            else if step2 then "needs_update" else "ok"
          if status = "needs_update" then
            some (dictSet (dictSet (dictSet [("status", CacheVal.strV status)]
                    cfg.key_field cache_id)
                  "next_update" (CacheVal.intV next_update_time))
                "next_update_str" (CacheVal.strV (e2s next_update_time)))
          else
            some [("status", CacheVal.strV status)]

/-- State-threaded form of get_cache_update_for_item: the cache_entry
dict is threaded through every translated statement and returned, to
witness that no statement of the Python function writes into it (all
accesses on lines 392, 397 and 409 are reads). -/
def get_cache_update_for_item_st (e2s : Int → String) (cache_entry : Dict CacheVal)
    (cur_time : Int) (cfg : CacheCfg) (r : Int) :
    Option (Dict CacheVal) × Dict CacheVal :=
  match make_int ((dictGet cache_entry "last_updated").getD (CacheVal.intV 0)) with
  | none => (none, cache_entry)
  | some item_last_updated =>
    if cur_time - item_last_updated < cfg.session_interval then
      (some [("status", CacheVal.strV "ok")], cache_entry)
    else
      match dictGet cache_entry cfg.key_field with
      | none => (none, cache_entry)
      | some cache_id =>
        let step2 : Bool :=
          (cur_time - cfg.recent_interval < item_last_updated) || (item_last_updated == 0)
        let next_update_time : Int :=
          if step2 then get_next_update_time cur_time cfg r
          else cur_time + cfg.refresh_interval
        match make_int ((dictGet cache_entry "next_update").getD (CacheVal.intV (cur_time + 1))) with
        | none => (none, cache_entry)
        | some item_next_update =>
          let status : String :=
            if item_next_update ≤ cur_time then "needs_update"
            else if step2 then "needs_update" else "ok"
          if status = "needs_update" then
            (some (dictSet (dictSet (dictSet [("status", CacheVal.strV status)]
                    cfg.key_field cache_id)
                  "next_update" (CacheVal.intV next_update_time))
                "next_update_str" (CacheVal.strV (e2s next_update_time))), cache_entry)
          else
            (some [("status", CacheVal.strV status)], cache_entry)

/-- Helper: erasing the first binding matched by p does not change a
find? whose predicate q is disjoint from p. -/
theorem find?_eraseP_disjoint {α : Type} (p q : α → Bool) (l : List α)
    (hdis : ∀ x, q x = true → p x = false) :
    (l.eraseP p).find? q = l.find? q := by
  induction l with
  | nil => rfl
  | cons a l ih =>
    by_cases hpa : p a = true
    · rw [List.eraseP_cons_of_pos hpa]
      have hqa : q a = false := by
        cases hqa : q a with
        | false => rfl
        | true => rw [hdis a hqa] at hpa; exact absurd hpa (by simp)
      rw [List.find?_cons_of_neg _ (by simp [hqa])]
    · rw [List.eraseP_cons_of_neg hpa]
      cases hqa : q a with
      | true =>
        rw [List.find?_cons_of_pos _ hqa, List.find?_cons_of_pos _ hqa]
      | false =>
        rw [List.find?_cons_of_neg _ (by simp [hqa]),
          List.find?_cons_of_neg _ (by simp [hqa]), ih]

/-- Lookup of a key just re-bound by dictSet. -/
theorem dictGet_set_eq {α : Type} (d : Dict α) (k : String) (v : α) :
    dictGet (dictSet d k v) k = some v := by
  simp [dictGet, dictSet, List.find?]

/-- Lookup of any other key is unchanged by dictSet. -/
theorem dictGet_set_ne {α : Type} (d : Dict α) (k : String) (v : α)
    (k2 : String) (h : k2 ≠ k) :
    dictGet (dictSet d k v) k2 = dictGet d k2 := by
  have hne : k ≠ k2 := fun hh => h hh.symm
  unfold dictGet dictSet
  rw [List.find?_cons_of_neg _ (by simp [hne]), find?_eraseP_disjoint]
  intro x hx
  have hx2 : x.1 = k2 := by simpa using hx
  rw [hx2]
  exact beq_eq_false_iff_ne.mpr h

/-- Lookup in a one-binding dict, matching key. -/
theorem dictGet_single_eq {α : Type} (k : String) (v : α) :
    dictGet [(k, v)] k = some v := by
  simp [dictGet, List.find?]

/-- Lookup in a one-binding dict, different key. -/
theorem dictGet_single_ne {α : Type} (k : String) (v : α) (k2 : String)
    (h : k2 ≠ k) : dictGet [(k, v)] k2 = none := by
  have hne : (k == k2) = false := beq_eq_false_iff_ne.mpr (fun hh => h hh.symm)
  simp [dictGet, List.find?, hne]

/-- C1: if now - last_updated is below the session interval, the
decision engine returns status ok immediately, whatever the rest of the
record (in particular next_update) contains. -/
theorem session_short_circuit_fresh (e2s : Int → String) (cache_entry : Dict CacheVal)
    (cur_time : Int) (cfg : CacheCfg) (r : Int) (lu : Int)
    (hlu : make_int ((dictGet cache_entry "last_updated").getD (CacheVal.intV 0)) = some lu)
    (hsess : cur_time - lu < cfg.session_interval) :
    get_cache_update_for_item e2s cache_entry cur_time cfg r =
      some [("status", CacheVal.strV "ok")] := by
  unfold get_cache_update_for_item
  rw [hlu]
  simp [hsess]

/-- Witness for C1 at a concrete record whose next_update deadline has
already passed: the session short-circuit still wins. -/
theorem session_short_circuit_fresh_witness :
    get_cache_update_for_item (fun _ => "")
      [("pic_id", CacheVal.strV "A"), ("last_updated", CacheVal.intV 4),
       ("next_update", CacheVal.intV 3)] 5 ⟨"pic_id", 5, 30, 140, 10⟩ 40 =
      some [("status", CacheVal.strV "ok")] :=
  session_short_circuit_fresh (fun _ => "") _ 5 ⟨"pic_id", 5, 30, 140, 10⟩ 40 4
    (by decide) (by decide)

/-- C10: the decision engine does not mutate its cache_entry argument
(the state-threaded translation returns it unchanged next to the very
result of the plain translation), and every field of a returned update
dict is one of status, the key field, next_update, next_update_str:
nothing is written anywhere but the freshly built result dict. -/
theorem decide_no_mutation (e2s : Int → String) (cache_entry : Dict CacheVal)
    (cur_time : Int) (cfg : CacheCfg) (r : Int) :
    get_cache_update_for_item_st e2s cache_entry cur_time cfg r =
      (get_cache_update_for_item e2s cache_entry cur_time cfg r, cache_entry) ∧
    (∀ u, get_cache_update_for_item e2s cache_entry cur_time cfg r = some u →
      ∀ f, f ∉ ["status", cfg.key_field, "next_update", "next_update_str"] →
        dictGet u f = none) := by
  constructor
  · cases h1 : make_int ((dictGet cache_entry "last_updated").getD (CacheVal.intV 0)) with
    | none => simp [get_cache_update_for_item_st, get_cache_update_for_item, h1]
    | some lu =>
      by_cases h2 : cur_time - lu < cfg.session_interval
      · simp [get_cache_update_for_item_st, get_cache_update_for_item, h1, h2]
      · cases h3 : dictGet cache_entry cfg.key_field with
        | none => simp [get_cache_update_for_item_st, get_cache_update_for_item, h1, h2, h3]
        | some cid =>
          cases h4 : make_int ((dictGet cache_entry "next_update").getD (CacheVal.intV (cur_time + 1))) with
          | none => simp [get_cache_update_for_item_st, get_cache_update_for_item, h1, h2, h3, h4]
          | some nu =>
            simp only [get_cache_update_for_item_st, get_cache_update_for_item, h1, h2, h3, h4]
            by_cases h5 : nu ≤ cur_time
            · simp [h5]
            · by_cases h6 : (decide (cur_time - cfg.recent_interval < lu) || (lu == 0)) = true
              · simp [h5, h6]
              · rw [Bool.not_eq_true] at h6
                simp [h5, h6]
  · intro u hu f hf
    simp only [List.mem_cons, List.not_mem_nil, or_false, not_or] at hf
    obtain ⟨hf1, hf2, hf3, hf4⟩ := hf
    revert hu
    cases h1 : make_int ((dictGet cache_entry "last_updated").getD (CacheVal.intV 0)) with
    | none => simp [get_cache_update_for_item, h1]
    | some lu =>
      by_cases h2 : cur_time - lu < cfg.session_interval
      · simp only [get_cache_update_for_item, h1, h2, if_true, Option.some.injEq]
        intro hu
        rw [← hu]
        exact dictGet_single_ne _ _ _ hf1
      · cases h3 : dictGet cache_entry cfg.key_field with
        | none => simp [get_cache_update_for_item, h1, h2, h3]
        | some cid =>
          cases h4 : make_int ((dictGet cache_entry "next_update").getD (CacheVal.intV (cur_time + 1))) with
          | none => simp [get_cache_update_for_item, h1, h2, h3, h4]
          | some nu =>
            have hsingle : ∀ v : CacheVal, dictGet [("status", v)] f = none :=
              fun v => dictGet_single_ne _ _ _ hf1
            have hchain : ∀ (v cidv w x : CacheVal),
                dictGet (dictSet (dictSet (dictSet [("status", v)] cfg.key_field cidv)
                  "next_update" w) "next_update_str" x) f = none := by
              intro v cidv w x
              rw [dictGet_set_ne _ _ _ _ hf4, dictGet_set_ne _ _ _ _ hf3,
                dictGet_set_ne _ _ _ _ hf2]
              exact hsingle v
            simp only [get_cache_update_for_item, h1, h2, h3, h4]
            by_cases h5 : nu ≤ cur_time
            · intro hu
              simp only [h5, if_true, ite_true, if_false, ite_false, eq_self_iff_true,
                Option.some.injEq] at hu
              subst hu
              exact hchain _ _ _ _
            · by_cases h6 : (decide (cur_time - cfg.recent_interval < lu) || (lu == 0)) = true
              · intro hu
                simp only [h5, h6, if_true, ite_true, if_false, ite_false, eq_self_iff_true,
                  Option.some.injEq] at hu
                subst hu
                exact hchain _ _ _ _
              · rw [Bool.not_eq_true] at h6
                intro hu
                simp [h5, h6] at hu
                subst hu
                exact hsingle _

/-- Witness for C10's second part: at a concrete session-fresh record
the returned dict carries no title field. -/
theorem decide_no_mutation_witness :
    get_cache_update_for_item_st (fun _ => "")
        [("pic_id", CacheVal.strV "A"), ("last_updated", CacheVal.intV 4)] 5
        ⟨"pic_id", 5, 30, 140, 10⟩ 40 =
      (get_cache_update_for_item (fun _ => "")
        [("pic_id", CacheVal.strV "A"), ("last_updated", CacheVal.intV 4)] 5
        ⟨"pic_id", 5, 30, 140, 10⟩ 40,
       [("pic_id", CacheVal.strV "A"), ("last_updated", CacheVal.intV 4)]) ∧
    dictGet [("status", CacheVal.strV "ok")] "title" = none :=
  ⟨(decide_no_mutation (fun _ => "")
      [("pic_id", CacheVal.strV "A"), ("last_updated", CacheVal.intV 4)] 5
      ⟨"pic_id", 5, 30, 140, 10⟩ 40).1,
   (decide_no_mutation (fun _ => "")
      [("pic_id", CacheVal.strV "A"), ("last_updated", CacheVal.intV 4)] 5
      ⟨"pic_id", 5, 30, 140, 10⟩ 40).2
     [("status", CacheVal.strV "ok")] (by decide) "title" (by decide)⟩

/-- C3 counterexample: a record whose deadline has passed
(next_update = 3 <= now = 5) for which the decision engine still
returns status ok, because the session short-circuit fires first
(now - last_updated = 1 < session_interval = 5). The claim, quantified
over every record with next_update <= now, is therefore false. -/
theorem deadline_session_counterexample :
    dictGet [("pic_id", CacheVal.strV "A"), ("last_updated", CacheVal.intV 4),
        ("next_update", CacheVal.intV 3)] "next_update" = some (CacheVal.intV 3) ∧
    (3 : Int) ≤ 5 ∧
    get_cache_update_for_item (fun _ => "")
        [("pic_id", CacheVal.strV "A"), ("last_updated", CacheVal.intV 4),
         ("next_update", CacheVal.intV 3)] 5 ⟨"pic_id", 5, 30, 140, 10⟩ 40 =
      some [("status", CacheVal.strV "ok")] ∧
    CacheVal.strV "ok" ≠ CacheVal.strV "needs_update" := by decide

/-- C3 amended: if the session short-circuit does not fire and the
record's deadline has passed (next_update, defaulting to now + 1 when
absent, is at most now), the decision engine returns status
needs_update, whether or not the recency-or-unset rule triggered.
The record is assumed well formed: its epoch fields parse as ints and
it carries the key field, and the configured key column is not named
status. -/
theorem deadline_forces_stale (e2s : Int → String) (cache_entry : Dict CacheVal)
    (cur_time : Int) (cfg : CacheCfg) (r : Int) (lu nu : Int) (cid : CacheVal)
    (hlu : make_int ((dictGet cache_entry "last_updated").getD (CacheVal.intV 0)) = some lu)
    (hsess : ¬ (cur_time - lu < cfg.session_interval))
    (hkey : dictGet cache_entry cfg.key_field = some cid)
    (hnu : make_int ((dictGet cache_entry "next_update").getD (CacheVal.intV (cur_time + 1))) = some nu)
    (hdl : nu ≤ cur_time)
    (hks : cfg.key_field ≠ "status") :
    ∃ u, get_cache_update_for_item e2s cache_entry cur_time cfg r = some u ∧
      dictGet u "status" = some (CacheVal.strV "needs_update") := by
  simp only [get_cache_update_for_item, hlu, hsess, hkey, hnu, if_false, ite_false, hdl,
    if_true, ite_true, eq_self_iff_true, Option.some.injEq]
  refine ⟨_, rfl, ?_⟩
  rw [dictGet_set_ne _ _ _ _ (by decide), dictGet_set_ne _ _ _ _ (by decide),
    dictGet_set_ne _ _ _ _ (fun hh : (("status" : String) = cfg.key_field) => hks hh.symm)]
  exact dictGet_single_eq _ _

/-- Witness for C3 at a concrete record past both the session window and
the recency window, with an elapsed deadline. -/
theorem deadline_forces_stale_witness :
    ∃ u, get_cache_update_for_item (fun _ => "")
        [("pic_id", CacheVal.strV "A"), ("last_updated", CacheVal.intV 2),
         ("next_update", CacheVal.intV 45)] 141 ⟨"pic_id", 5, 30, 140, 10⟩ 40 =
      some u ∧ dictGet u "status" = some (CacheVal.strV "needs_update") :=
  deadline_forces_stale (fun _ => "") _ 141 ⟨"pic_id", 5, 30, 140, 10⟩ 40 2 45
    (CacheVal.strV "A") (by decide) (by decide) (by decide) (by decide) (by decide)
    (by decide)

/-- C2 counterexample: a never-updated record (no last_updated binding,
so it coerces to 0) at now = 100 with policy (session 5, recent 30,
refresh 140, increment 10) and the random draw at its upper bound 140
(a value random.randint can return, being inclusive on both ends):
the attached nextUpdate is 240 = now + refresh_interval, which is not
strictly below now + refresh_interval, refuting the claimed
inclusive-exclusive bound. -/
theorem never_updated_bound_counterexample :
    randint_bounds ⟨"pic_id", 5, 30, 140, 10⟩ 140 ∧
    make_int ((dictGet [("pic_id", CacheVal.strV "A")] "last_updated").getD
      (CacheVal.intV 0)) = some 0 ∧
    (get_cache_update_for_item (fun _ => "") [("pic_id", CacheVal.strV "A")] 100
        ⟨"pic_id", 5, 30, 140, 10⟩ 140).bind (fun u => dictGet u "next_update") =
      some (CacheVal.intV 240) ∧
    ¬((240 : Int) < 100 + 140) :=
  ⟨⟨by decide, by decide⟩, by decide, by decide, by decide⟩

/-- C2 amended: for a record whose last_updated coerces to 0, provided
the session short-circuit cannot fire (session_interval <= now) and the
record is well formed (key field present, next_update coercible), the
engine returns status needs_update with nextUpdate = now + r for the
random draw r, which lies between now + recent_interval + increment and
now + refresh_interval, both bounds inclusive. -/
theorem never_updated_stale_bounds (e2s : Int → String) (cache_entry : Dict CacheVal)
    (cur_time : Int) (cfg : CacheCfg) (r : Int) (nu : Int) (cid : CacheVal)
    (hlu : make_int ((dictGet cache_entry "last_updated").getD (CacheVal.intV 0)) = some 0)
    (hsess : cfg.session_interval ≤ cur_time)
    (hkey : dictGet cache_entry cfg.key_field = some cid)
    (hnu : make_int ((dictGet cache_entry "next_update").getD (CacheVal.intV (cur_time + 1))) = some nu)
    (hks : cfg.key_field ≠ "status")
    (hr : randint_bounds cfg r) :
    ∃ u, get_cache_update_for_item e2s cache_entry cur_time cfg r = some u ∧
      dictGet u "status" = some (CacheVal.strV "needs_update") ∧
      dictGet u "next_update" = some (CacheVal.intV (get_next_update_time cur_time cfg r)) ∧
      cur_time + (cfg.recent_interval + cfg.increment) ≤ get_next_update_time cur_time cfg r ∧
      get_next_update_time cur_time cfg r ≤ cur_time + cfg.refresh_interval := by
  obtain ⟨hr1, hr2⟩ := hr
  have hs : ¬(cur_time - (0 : Int) < cfg.session_interval) := by omega
  have hs' : ¬(cur_time < cfg.session_interval) := by omega
  have hres : get_cache_update_for_item e2s cache_entry cur_time cfg r =
      some (dictSet (dictSet (dictSet [("status", CacheVal.strV "needs_update")]
          cfg.key_field cid)
          "next_update" (CacheVal.intV (get_next_update_time cur_time cfg r)))
        "next_update_str" (CacheVal.strV (e2s (get_next_update_time cur_time cfg r)))) := by
    by_cases h5 : nu ≤ cur_time
    · simp [get_cache_update_for_item, hlu, hs, hs', hkey, hnu, h5]
    · simp [get_cache_update_for_item, hlu, hs, hs', hkey, hnu, h5]
  refine ⟨_, hres, ?_, ?_, ?_, ?_⟩
  · rw [dictGet_set_ne _ _ _ _ (by decide), dictGet_set_ne _ _ _ _ (by decide),
      dictGet_set_ne _ _ _ _ (fun hh : (("status" : String) = cfg.key_field) => hks hh.symm)]
    exact dictGet_single_eq _ _
  · rw [dictGet_set_ne _ _ _ _ (by decide)]
    exact dictGet_set_eq _ _ _
  · unfold get_next_update_time
    omega
  · unfold get_next_update_time
    omega

/-- Witness for C2 at a concrete never-updated record and an in-range
draw. -/
theorem never_updated_stale_bounds_witness :
    ∃ u, get_cache_update_for_item (fun _ => "") [("pic_id", CacheVal.strV "A")] 100
        ⟨"pic_id", 5, 30, 140, 10⟩ 45 = some u ∧
      dictGet u "status" = some (CacheVal.strV "needs_update") ∧
      dictGet u "next_update" =
        some (CacheVal.intV (get_next_update_time 100 ⟨"pic_id", 5, 30, 140, 10⟩ 45)) ∧
      100 + (30 + 10) ≤ get_next_update_time 100 ⟨"pic_id", 5, 30, 140, 10⟩ 45 ∧
      get_next_update_time 100 ⟨"pic_id", 5, 30, 140, 10⟩ 45 ≤ 100 + 140 :=
  never_updated_stale_bounds (fun _ => "") _ 100 ⟨"pic_id", 5, 30, 140, 10⟩ 45 101
    (CacheVal.strV "A") (by decide) (by decide) (by decide) (by decide) (by decide)
    ⟨by decide, by decide⟩

/-- C4 counterexample: a record past its deadline but outside the
recency rule (last_updated = 2, neither 0 nor above now - recent), at
now = 141 with policy (5, 30, 140, 10) and draw r = 40 (in range): the
attached nextUpdate is 281 = now + refresh_interval, not the jittered
now + r = 181; no random draw is consumed on this path. -/
theorem deadline_only_jitter_counterexample :
    randint_bounds ⟨"pic_id", 5, 30, 140, 10⟩ 40 ∧
    ¬((141 : Int) - 30 < 2) ∧ (2 : Int) ≠ 0 ∧
    (get_cache_update_for_item (fun _ => "")
        [("pic_id", CacheVal.strV "A"), ("last_updated", CacheVal.intV 2),
         ("next_update", CacheVal.intV 45)] 141
        ⟨"pic_id", 5, 30, 140, 10⟩ 40).bind (fun u => dictGet u "status") =
      some (CacheVal.strV "needs_update") ∧
    (get_cache_update_for_item (fun _ => "")
        [("pic_id", CacheVal.strV "A"), ("last_updated", CacheVal.intV 2),
         ("next_update", CacheVal.intV 45)] 141
        ⟨"pic_id", 5, 30, 140, 10⟩ 40).bind (fun u => dictGet u "next_update") =
      some (CacheVal.intV 281) ∧
    (281 : Int) ≠ 141 + 40 :=
  ⟨⟨by decide, by decide⟩, by decide, by decide, by decide, by decide, by decide⟩

/-- C4 amended: when only the hard deadline rule triggers (the session
short-circuit and the recency-or-unset rule both fail), the nextUpdate
attached to the needs_update result is the deterministic
now + refresh_interval computed on line 398; no fresh random draw is
made on this path. -/
theorem deadline_only_next_update (e2s : Int → String) (cache_entry : Dict CacheVal)
    (cur_time : Int) (cfg : CacheCfg) (r : Int) (lu nu : Int) (cid : CacheVal)
    (hlu : make_int ((dictGet cache_entry "last_updated").getD (CacheVal.intV 0)) = some lu)
    (hsess : ¬(cur_time - lu < cfg.session_interval))
    (hkey : dictGet cache_entry cfg.key_field = some cid)
    (hrec : ¬(cur_time - cfg.recent_interval < lu))
    (hlu0 : lu ≠ 0)
    (hnu : make_int ((dictGet cache_entry "next_update").getD (CacheVal.intV (cur_time + 1))) = some nu)
    (hdl : nu ≤ cur_time) :
    ∃ u, get_cache_update_for_item e2s cache_entry cur_time cfg r = some u ∧
      dictGet u "next_update" = some (CacheVal.intV (cur_time + cfg.refresh_interval)) := by
  have hres : get_cache_update_for_item e2s cache_entry cur_time cfg r =
      some (dictSet (dictSet (dictSet [("status", CacheVal.strV "needs_update")]
          cfg.key_field cid)
          "next_update" (CacheVal.intV (cur_time + cfg.refresh_interval)))
        "next_update_str" (CacheVal.strV (e2s (cur_time + cfg.refresh_interval)))) := by
    simp [get_cache_update_for_item, hlu, hsess, hkey, hnu, hdl, hrec, hlu0]
  refine ⟨_, hres, ?_⟩
  rw [dictGet_set_ne _ _ _ _ (by decide)]
  exact dictGet_set_eq _ _ _

/-- Witness for C4 at the concrete deadline-only record. -/
theorem deadline_only_next_update_witness :
    ∃ u, get_cache_update_for_item (fun _ => "")
        [("pic_id", CacheVal.strV "A"), ("last_updated", CacheVal.intV 2),
         ("next_update", CacheVal.intV 45)] 141 ⟨"pic_id", 5, 30, 140, 10⟩ 40 =
      some u ∧
      dictGet u "next_update" = some (CacheVal.intV (141 + 140)) :=
  deadline_only_next_update (fun _ => "") _ 141 ⟨"pic_id", 5, 30, 140, 10⟩ 40 2 45
    (CacheVal.strV "A") (by decide) (by decide) (by decide) (by decide) (by decide)
    (by decide) (by decide)

/-- Outcome of the flickr.photos.getInfo call made by
get_info_from_flickr (flickr_insert.py lines 426-466), abstracting the
network boundary: the call either raises FlickrError with a message,
returns a response whose stat field is not ok, or succeeds with the
farm, server, id, secret and title components used to build the base
URL. -/
inductive FetchOutcome : Type
  | success (farm server pid secret title : String)
  | flickrError (msg : String)
  | statNotOk
deriving DecidableEq

/-- Embeds get_info_from_flickr (flickr_insert.py lines 426-466) as a
function of the call outcome: on FlickrError the returned dict holds
only flickr_error bound to the message (line 436); on a non-ok stat the
empty dict is returned (line 440); on success the dict holds
insert_image_url_base (built from farm, server, id and secret, lines
455-461) and title. -/
def get_info_from_flickr : FetchOutcome → Dict CacheVal
  | FetchOutcome.flickrError msg => [("flickr_error", CacheVal.strV msg)]
  | FetchOutcome.statNotOk => []
  | FetchOutcome.success farm server pid secret title =>
      [("insert_image_url_base", CacheVal.strV
          ("https://farm" ++ farm ++ ".staticflickr.com/" ++ server ++ "/" ++
            pid ++ "_" ++ secret ++ "_")),
       ("title", CacheVal.strV title)]

/-- Embeds the cache-update fragment of replace_tags_in_document
(flickr_insert.py lines 341-362): when the decide result item_update
has status needs_update, get_info_from_flickr is called; if the
returned dict is truthy (non-empty), it is merged into item_update
together with fresh last_updated, last_updated_str, next_update and
next_update_str fields (the next update time being a new random draw
r), and the merged dict replaces the whole cache record under key;
otherwise the cache is left unchanged (the else branch on lines 360-362
only holds a todo comment). Returns none where Python would raise
(item_update lacking the status field). -/
def apply_item_update (e2s : Int → String) (cache : Dict (Dict CacheVal))
    (key : String) (item_update : Dict CacheVal) (outcome : FetchOutcome)
    (cur_time : Int) (cfg : CacheCfg) (r : Int) : Option (Dict (Dict CacheVal)) :=
  match dictGet item_update "status" with
  | none => none
  | some st =>
    if st = CacheVal.strV "needs_update" then
      let updated_item := get_info_from_flickr outcome
      if updated_item.isEmpty then some cache
      else
        let item_update2 := dictUpdate item_update updated_item
        let next_update_time := get_next_update_time cur_time cfg r
        let item_update3 := dictUpdate item_update2
          [("last_updated", CacheVal.intV cur_time),
           ("last_updated_str", CacheVal.strV (e2s cur_time)),
           ("next_update", CacheVal.intV next_update_time),
           ("next_update_str", CacheVal.strV (e2s next_update_time))]
        some (dictSet cache key item_update3)
    else some cache

/-- C5: code bug, evaluated at the failing input. The cached record A
holds title T, base URL U, last_updated 2 and next_update 3; at
now = 141 the engine asks for an update, and the fetch raises
FlickrError boom. Because the dict returned for a FlickrError is
non-empty, the truthiness test on line 346 takes the success path: the
stored record afterwards carries flickr_error boom but has lost title
and insert_image_url_base, and its last_updated was overwritten with
now - contradicting the claim (and spec sections 4.3 and 7) that every
previously cached field other than the error field is left unchanged. -/
theorem fetch_error_clobbers_cache :
    dictGet [("pic_id", CacheVal.strV "A"), ("title", CacheVal.strV "T"),
      ("insert_image_url_base", CacheVal.strV "U"), ("last_updated", CacheVal.intV 2),
      ("next_update", CacheVal.intV 3)] "title" = some (CacheVal.strV "T") ∧
    ((get_cache_update_for_item (fun _ => "")
        [("pic_id", CacheVal.strV "A"), ("title", CacheVal.strV "T"),
         ("insert_image_url_base", CacheVal.strV "U"), ("last_updated", CacheVal.intV 2),
         ("next_update", CacheVal.intV 3)] 141 ⟨"pic_id", 5, 30, 140, 10⟩ 40).bind
      (fun u => apply_item_update (fun _ => "")
        [("A", [("pic_id", CacheVal.strV "A"), ("title", CacheVal.strV "T"),
          ("insert_image_url_base", CacheVal.strV "U"), ("last_updated", CacheVal.intV 2),
          ("next_update", CacheVal.intV 3)])] "A" u
        (FetchOutcome.flickrError "boom") 141 ⟨"pic_id", 5, 30, 140, 10⟩ 40)).bind
      (fun c => (dictGet c "A").bind (fun e => dictGet e "flickr_error")) =
      some (CacheVal.strV "boom") ∧
    ((get_cache_update_for_item (fun _ => "")
        [("pic_id", CacheVal.strV "A"), ("title", CacheVal.strV "T"),
         ("insert_image_url_base", CacheVal.strV "U"), ("last_updated", CacheVal.intV 2),
         ("next_update", CacheVal.intV 3)] 141 ⟨"pic_id", 5, 30, 140, 10⟩ 40).bind
      (fun u => apply_item_update (fun _ => "")
        [("A", [("pic_id", CacheVal.strV "A"), ("title", CacheVal.strV "T"),
          ("insert_image_url_base", CacheVal.strV "U"), ("last_updated", CacheVal.intV 2),
          ("next_update", CacheVal.intV 3)])] "A" u
        (FetchOutcome.flickrError "boom") 141 ⟨"pic_id", 5, 30, 140, 10⟩ 40)).bind
      (fun c => (dictGet c "A").bind (fun e => dictGet e "title")) = none ∧
    ((get_cache_update_for_item (fun _ => "")
        [("pic_id", CacheVal.strV "A"), ("title", CacheVal.strV "T"),
         ("insert_image_url_base", CacheVal.strV "U"), ("last_updated", CacheVal.intV 2),
         ("next_update", CacheVal.intV 3)] 141 ⟨"pic_id", 5, 30, 140, 10⟩ 40).bind
      (fun u => apply_item_update (fun _ => "")
        [("A", [("pic_id", CacheVal.strV "A"), ("title", CacheVal.strV "T"),
          ("insert_image_url_base", CacheVal.strV "U"), ("last_updated", CacheVal.intV 2),
          ("next_update", CacheVal.intV 3)])] "A" u
        (FetchOutcome.flickrError "boom") 141 ⟨"pic_id", 5, 30, 140, 10⟩ 40)).bind
      (fun c => (dictGet c "A").bind (fun e => dictGet e "last_updated")) =
      some (CacheVal.intV 141) ∧
    CacheVal.intV 141 ≠ CacheVal.intV 2 :=
  ⟨by decide, by decide, by decide, by decide, by decide⟩

/-- C8: a record stored by the success path of the refresh carries
last_updated = now and next_update = now + r; under the policy
invariant and the randint contract, next_update >= last_updated. -/
theorem stored_next_update_ge_last_updated (e2s : Int → String)
    (cache : Dict (Dict CacheVal)) (key : String) (item_update : Dict CacheVal)
    (farm server pid secret title : String) (cur_time : Int) (cfg : CacheCfg) (r : Int)
    (hst : dictGet item_update "status" = some (CacheVal.strV "needs_update"))
    (hpol : policy_invariant cfg) (hr : randint_bounds cfg r) :
    ∃ cache2 rec, apply_item_update e2s cache key item_update
        (FetchOutcome.success farm server pid secret title) cur_time cfg r =
        some cache2 ∧
      dictGet cache2 key = some rec ∧
      dictGet rec "last_updated" = some (CacheVal.intV cur_time) ∧
      dictGet rec "next_update" = some (CacheVal.intV (get_next_update_time cur_time cfg r)) ∧
      cur_time ≤ get_next_update_time cur_time cfg r := by
  obtain ⟨hp1, hp2, hp3⟩ := hpol
  obtain ⟨hr1, hr2⟩ := hr
  simp only [apply_item_update, hst, eq_self_iff_true, if_true, get_info_from_flickr,
    List.isEmpty_cons, dictUpdate, List.foldl, if_false, Bool.false_eq_true, ite_false]
  refine ⟨_, _, rfl, dictGet_set_eq _ _ _, ?_, ?_, ?_⟩
  · rw [dictGet_set_ne _ _ _ _ (by decide), dictGet_set_ne _ _ _ _ (by decide),
      dictGet_set_ne _ _ _ _ (by decide)]
    exact dictGet_set_eq _ _ _
  · rw [dictGet_set_ne _ _ _ _ (by decide)]
    exact dictGet_set_eq _ _ _
  · unfold get_next_update_time
    omega

/-- Witness for C8 at a concrete needs_update record, policy and draw. -/
theorem stored_next_update_ge_last_updated_witness :
    ∃ cache2 rec, apply_item_update (fun _ => "") [] "A"
        [("status", CacheVal.strV "needs_update")]
        (FetchOutcome.success "9" "8579" "16736042621" "7cfe88c078" "T") 100
        ⟨"pic_id", 5, 30, 140, 10⟩ 45 = some cache2 ∧
      dictGet cache2 "A" = some rec ∧
      dictGet rec "last_updated" = some (CacheVal.intV 100) ∧
      dictGet rec "next_update" =
        some (CacheVal.intV (get_next_update_time 100 ⟨"pic_id", 5, 30, 140, 10⟩ 45)) ∧
      (100 : Int) ≤ get_next_update_time 100 ⟨"pic_id", 5, 30, 140, 10⟩ 45 :=
  stored_next_update_ge_last_updated (fun _ => "") [] "A"
    [("status", CacheVal.strV "needs_update")] "9" "8579" "16736042621" "7cfe88c078" "T"
    100 ⟨"pic_id", 5, 30, 140, 10⟩ 45 (by decide) ⟨by decide, by decide, by decide⟩
    ⟨by decide, by decide⟩

/-- Embeds DEFAULT_PHOTO_SUFFIX (flickr_insert.py line 127). -/
def DEFAULT_PHOTO_SUFFIX : String := "z"

/-- Embeds photo_suffix_sizes (flickr_insert.py lines 128-135): each
canonical Flickr suffix letter with its accepted size tokens. -/
def photo_suffix_sizes : List (String × List String) :=
  [("s", ["smallsq", "sq75", "75"]),
   ("t", ["thumb", "th100", "100"]),
   ("q", ["largesq", "sq150", "150"]),
   ("m", ["small", "small240", "240"]),
   (DEFAULT_PHOTO_SUFFIX, ["medium", "medium640", "640"]),
   ("b", ["large", "large1024", "1024"])]

/-- Embeds the photo_suffixes dict comprehension (flickr_insert.py
lines 137-139): size token to suffix letter. -/
def photo_suffixes : Dict String :=
  photo_suffix_sizes.flatMap (fun p => p.2.map (fun size => (size, p.1)))

/-- Embeds photo_captions_enabled (flickr_insert.py lines 143-146). -/
def photo_captions_enabled : List (Bool × List String) :=
  [(false, ["s", "t", "q", "m"]), (true, ["z", "b"])]

/-- Embeds the caption_for_size dict comprehension (flickr_insert.py
lines 147-149): suffix letter to default caption visibility. -/
def caption_for_size : Dict Bool :=
  photo_captions_enabled.flatMap (fun p => p.2.map (fun letter => (letter, p.1)))

/-- Embeds ensure_photo_size (flickr_insert.py lines 223-234). The test
on line 226, size not in photo_suffixes.keys(), is rendered as the
lookup in photo_suffixes failing. Returns the pair (size, size_suffix)
that the Python function returns as a two-field dict; size_suffix is
the suffix lookup of the chosen size, None when absent (dict.get). -/
def ensure_photo_size (photo : Dict String) (default_image_size : String) :
    String × Option String :=
  let size0 := (dictGet photo "size").getD ""
  let size := if (dictGet photo_suffixes size0).isNone then default_image_size else size0
  (size, dictGet photo_suffixes size)

/-- Renders the Python str.lower() call: lowercase every character.
Stated over the character list so that the kernel can evaluate it
(String.map, hence String.toLower, does not reduce in the kernel);
on the ASCII tokens involved here this is exactly str.lower(). -/
def str_lower (s : String) : String :=
  String.mk (s.data.map Char.toLower)

/-- Embeds BOOLEAN_STATES (flickr_insert.py lines 65-67). -/
def BOOLEAN_STATES : Dict Bool :=
  [("1", true), ("yes", true), ("y", true), ("true", true), ("on", true),
   ("0", false), ("no", false), ("n", false), ("false", false), ("off", false)]

/-- Embeds ensure_photo_show_caption (flickr_insert.py lines 239-253).
The Python default False for a missing caption and show_caption
parameter is rendered by the empty string, which has the same falsy
truthiness and, being falsy, is never passed to lower(). A missing
suffix letter in caption_for_size would be a KeyError, hence the
Option result. -/
def ensure_photo_show_caption (photo : Dict String) : Option Bool :=
  let specified_caption :=
    (dictGet photo "caption").getD ((dictGet photo "show_caption").getD "")
  if specified_caption ≠ "" then
    some ((dictGet BOOLEAN_STATES (str_lower specified_caption)).getD true)
  else
    dictGet caption_for_size ((dictGet photo "size_suffix").getD DEFAULT_PHOTO_SUFFIX)

/-- C7 counterexample: the claim says matching is case-insensitive, but
the token Small (which the alias table maps, lowercased, to suffix m)
is not found by the case-sensitive membership test on line 226, so the
size falls back to the default medium with suffix z. -/
theorem photo_size_case_counterexample :
    dictGet photo_suffixes "small" = some "m" ∧
    ensure_photo_size [("size", "Small")] "medium" = ("medium", some "z") ∧
    ("z" : String) ≠ "m" :=
  ⟨by decide, by decide, by decide⟩

/-- C7 amended: ensure_photo_size maps a size token that appears
exactly (case-sensitively) in the alias table to that token and its
canonical suffix; an unrecognized token (including case variants of
aliases) or an absent size parameter yields the default medium size,
whose suffix is z (DEFAULT_PHOTO_SUFFIX). -/
theorem ensure_photo_size_spec (photo : Dict String) :
    (∀ t suf, dictGet photo "size" = some t → dictGet photo_suffixes t = some suf →
      ensure_photo_size photo "medium" = (t, some suf)) ∧
    (∀ t, dictGet photo "size" = some t → dictGet photo_suffixes t = none →
      ensure_photo_size photo "medium" = ("medium", some DEFAULT_PHOTO_SUFFIX)) ∧
    (dictGet photo "size" = none →
      ensure_photo_size photo "medium" = ("medium", some DEFAULT_PHOTO_SUFFIX)) := by
  refine ⟨?_, ?_, ?_⟩
  · intro t suf h1 h2
    simp [ensure_photo_size, h1, h2]
  · intro t h1 h2
    simp only [ensure_photo_size, h1, Option.getD_some, h2, Option.isNone_none, if_true,
      ite_true]
    decide
  · intro h1
    simp only [ensure_photo_size, h1, Option.getD_none]
    decide

/-- Witness for C7: the token small maps to suffix m, and an absent
size parameter yields medium with suffix z. -/
theorem ensure_photo_size_spec_witness :
    ensure_photo_size [("size", "small")] "medium" = ("small", some "m") ∧
    ensure_photo_size [] "medium" = ("medium", some DEFAULT_PHOTO_SUFFIX) :=
  ⟨(ensure_photo_size_spec [("size", "small")]).1 "small" "m" (by decide) (by decide),
   (ensure_photo_size_spec []).2.2 (by decide)⟩

/-- C9: a non-empty caption (or, failing that, show_caption) parameter
always decides visibility by itself: an unrecognized token yields
show_caption = True (BOOLEAN_STATES.get defaults to True), a recognized
token yields its boolean, and the size-based default table is consulted
only when the effective parameter is absent or the empty string. -/
theorem show_caption_override_spec (photo : Dict String) :
    ((dictGet photo "caption").getD ((dictGet photo "show_caption").getD "") ≠ "" →
      dictGet BOOLEAN_STATES
        (str_lower ((dictGet photo "caption").getD ((dictGet photo "show_caption").getD ""))) =
        none →
      ensure_photo_show_caption photo = some true) ∧
    ((dictGet photo "caption").getD ((dictGet photo "show_caption").getD "") ≠ "" →
      ensure_photo_show_caption photo =
        some ((dictGet BOOLEAN_STATES
          (str_lower ((dictGet photo "caption").getD
            ((dictGet photo "show_caption").getD "")))).getD true)) ∧
    ((dictGet photo "caption").getD ((dictGet photo "show_caption").getD "") = "" →
      ensure_photo_show_caption photo =
        dictGet caption_for_size ((dictGet photo "size_suffix").getD DEFAULT_PHOTO_SUFFIX)) := by
  refine ⟨?_, ?_, ?_⟩
  · intro h1 h2
    simp [ensure_photo_show_caption, h1, h2]
  · intro h1
    simp [ensure_photo_show_caption, h1]
  · intro h1
    simp [ensure_photo_show_caption, h1]

/-- Witness for C9: caption maybe, an unrecognized non-empty token, on
a small image whose size default would hide the caption, still shows
it. -/
theorem show_caption_override_spec_witness :
    ensure_photo_show_caption [("caption", "maybe"), ("size_suffix", "m")] = some true :=
  (show_caption_override_spec [("caption", "maybe"), ("size_suffix", "m")]).1
    (by decide) (by decide)

/-- Renders a cache value as csv.writer does: str() of the value. -/
def valToCSVString : CacheVal → String
  | CacheVal.intV n => toString n
  | CacheVal.strV s => s

/-- One cell written by DictWriter for field f of a record: the
record's value stringified, or the restval default, the empty string,
when the record lacks the field. -/
def csvCell (entry : Dict CacheVal) (f : String) : String :=
  match dictGet entry f with
  | some v => valToCSVString v
  | none => ""

/-- The row DictWriter writes for a record under a header: one cell per
header column, in order; extra record fields are dropped
(extrasaction ignore). -/
def csvRow (header : List String) (entry : Dict CacheVal) : List String :=
  header.map (csvCell entry)

/-- The dict DictReader builds for a row: header names zipped with the
row's cells; every loaded value is a string. -/
def rowDict (header : List String) (row : List String) : Dict CacheVal :=
  (header.zip row).map (fun q => (q.1, CacheVal.strV q.2))

/-- Embeds save_cache_to_csv (flickr_insert.py lines 482-494). The
tabular file is modelled as its list of rows of cell strings (the csv
quoting layer is below the abstraction). The header is the key column
followed by the configured field names (line 487-488); one row is
written per record, sorted by key (line 493), with unknown fields
dropped and missing fields written as the empty string (DictWriter
with extrasaction ignore and default restval). -/
def save_cache_to_csv (cache : Dict (Dict CacheVal)) (fieldnames : List String)
    (key_name : String) : List (List String) :=
  let csv_fieldnames := key_name :: fieldnames
  csv_fieldnames ::
    (List.insertionSort (fun a b => a.1 ≤ b.1) cache).map
      (fun p => csvRow csv_fieldnames p.2)

/-- One step of the dict comprehension on line 475: the row dict is
keyed by its key_name cell; a row without that column is a KeyError,
hence none. Later rows overwrite earlier ones, as in a Python dict
comprehension. -/
def load_row_step (header : List String) (key_name : String)
    (cache : Dict (Dict CacheVal)) (row : List String) :
    Option (Dict (Dict CacheVal)) :=
  match dictGet (rowDict header row) key_name with
  | some (CacheVal.strV k) => some (dictSet cache k (rowDict header row))
  | _ => none

/-- Embeds load_cache_from_csv (flickr_insert.py lines 469-479) on an
in-memory file: an empty file loads as the empty cache (DictReader
yields no rows); otherwise the first row is the header and each
remaining row becomes a record keyed by its key_name cell. The
missing-file branch (FileNotFoundError) is not modelled since the file
is a value here. -/
def load_cache_from_csv (file : List (List String)) (key_name : String) :
    Option (Dict (Dict CacheVal)) :=
  match file with
  | [] => some []
  | header :: rows => rows.foldlM (load_row_step header key_name) []

/-- Helper: zipping a list with its own map pairs each element with its
image. -/
theorem zip_self_map {α β : Type} (l : List α) (g : α → β) :
    l.zip (l.map g) = l.map (fun a => (a, g a)) := by
  induction l with
  | nil => rfl
  | cons a l ih => simp [ih]

/-- Helper: lookup in a dict built by mapping each key to a value of
it. -/
theorem dictGet_map_self {β : Type} (header : List String) (g : String → β)
    (x : String) :
    dictGet (header.map (fun f => (f, g f))) x =
      if x ∈ header then some (g x) else none := by
  induction header with
  | nil => simp [dictGet]
  | cons a hs ih =>
    by_cases hax : a = x
    · subst hax
      simp [dictGet, List.find?]
    · have hbeq : (a == x) = false := beq_eq_false_iff_ne.mpr hax
      unfold dictGet at ih ⊢
      rw [List.map_cons, List.find?_cons_of_neg _ (by simp [hbeq]), ih]
      have hxa : ¬ x = a := fun hh => hax hh.symm
      simp [hxa]

/-- The row dict read back for a record's own row maps each header
field to the record's stringified cell. -/
theorem rowDict_csvRow (header : List String) (e : Dict CacheVal) :
    rowDict header (csvRow header e) =
      header.map (fun f => (f, CacheVal.strV (csvCell e f))) := by
  unfold rowDict csvRow
  rw [zip_self_map, List.map_map]
  rfl

/-- Lookup in the re-read row dict of a record. -/
theorem dictGet_rowDict_csvRow (header : List String) (e : Dict CacheVal)
    (x : String) :
    dictGet (rowDict header (csvRow header e)) x =
      if x ∈ header then some (CacheVal.strV (csvCell e x)) else none := by
  rw [rowDict_csvRow, dictGet_map_self]

/-- Helper: with pairwise-distinct keys, key lookup is invariant under
permutation of an association list. -/
theorem find?_key_perm {α : Type} {l1 l2 : List (String × α)} (hp : l1.Perm l2)
    (k : String) :
    (l1.map Prod.fst).Nodup →
    l1.find? (fun p => p.1 == k) = l2.find? (fun p => p.1 == k) := by
  induction hp with
  | nil => intro _; rfl
  | cons x hp ih =>
    intro hnd
    rw [List.map_cons, List.nodup_cons] at hnd
    rw [List.find?_cons, List.find?_cons]
    cases hx : (x.1 == k) with
    | true => rfl
    | false => exact ih hnd.2
  | swap x y l =>
    intro hnd
    rw [List.map_cons, List.map_cons, List.nodup_cons, List.mem_cons] at hnd
    have hxy : y.1 ≠ x.1 := fun hh => hnd.1 (Or.inl hh)
    rw [List.find?_cons, List.find?_cons, List.find?_cons, List.find?_cons]
    cases hy : (y.1 == k) with
    | true =>
      cases hx : (x.1 == k) with
      | true =>
        rw [beq_iff_eq] at hy hx
        exact absurd (hy.trans hx.symm) hxy
      | false => rfl
    | false =>
      cases hx : (x.1 == k) with
      | true => rfl
      | false => rfl
  | trans h1 h2 ih1 ih2 =>
    intro hnd
    rw [ih1 hnd, ih2 (((h1.map Prod.fst).nodup_iff).mp hnd)]

/-- Helper: folding dictSet over rows none of which carries key k
leaves the lookup of k unchanged. -/
theorem foldl_dictSet_get_none {α : Type} (l : List (String × α)) (k : String) :
    ∀ d0 : Dict α, l.find? (fun p => p.1 == k) = none →
    dictGet (l.foldl (fun d p => dictSet d p.1 p.2) d0) k = dictGet d0 k := by
  induction l with
  | nil => intro d0 _; rfl
  | cons a l ih =>
    intro d0 h
    rw [List.find?_cons] at h
    cases ha : (a.1 == k) with
    | true => rw [ha] at h; exact absurd h (by simp)
    | false =>
      rw [ha] at h
      have hka : k ≠ a.1 := fun hh => absurd hh.symm (beq_eq_false_iff_ne.mp ha)
      rw [List.foldl_cons, ih _ h, dictGet_set_ne _ _ _ _ hka]

/-- Helper: with pairwise-distinct keys, folding dictSet over rows
binds k to the value found for it. -/
theorem foldl_dictSet_get_some {α : Type} (l : List (String × α)) (k : String)
    (p0 : String × α) :
    ∀ d0 : Dict α, (l.map Prod.fst).Nodup →
    l.find? (fun p => p.1 == k) = some p0 →
    dictGet (l.foldl (fun d p => dictSet d p.1 p.2) d0) k = some p0.2 := by
  induction l with
  | nil => intro d0 _ h; exact absurd h (by simp)
  | cons a l ih =>
    intro d0 hnd h
    rw [List.map_cons, List.nodup_cons] at hnd
    rw [List.find?_cons] at h
    cases ha : (a.1 == k) with
    | true =>
      rw [ha] at h
      have hap : a = p0 := by simpa using h
      subst hap
      have hk : a.1 = k := beq_iff_eq.mp ha
      have hnone : l.find? (fun p => p.1 == k) = none := by
        rw [List.find?_eq_none]
        intro x hx hpx
        have hxk : x.1 = k := by simpa using hpx
        exact hnd.1 (List.mem_map.mpr ⟨x, hx, hxk.trans hk.symm⟩)
      rw [List.foldl_cons, foldl_dictSet_get_none l k _ hnone, ← hk]
      exact dictGet_set_eq _ _ _
    | false =>
      rw [ha] at h
      simp only at h
      rw [List.foldl_cons]
      exact ih _ hnd.2 h

/-- Helper: loading the rows written for records whose own row carries
their key builds exactly the fold of dictSet over those records. -/
theorem load_foldlM (header : List String) (key_name : String)
    (l : List (String × Dict CacheVal)) :
    ∀ d0 : Dict (Dict CacheVal),
    (∀ p ∈ l, dictGet (rowDict header (csvRow header p.2)) key_name =
      some (CacheVal.strV p.1)) →
    List.foldlM (load_row_step header key_name) d0
        (l.map (fun p => csvRow header p.2)) =
      some ((l.map (fun p => (p.1, rowDict header (csvRow header p.2)))).foldl
        (fun c q => dictSet c q.1 q.2) d0) := by
  induction l with
  | nil => intro d0 _; rfl
  | cons a l ih =>
    intro d0 hk
    have ha := hk a (List.mem_cons_self a l)
    rw [List.map_cons, List.foldlM_cons]
    simp only [load_row_step, ha]
    rw [List.map_cons, List.foldl_cons]
    exact ih _ (fun p hp => hk p (List.mem_cons_of_mem a hp))

/-- C6 counterexample: the claim quantifies over every cache mapping,
but saving is driven by each record's own key cell, and values are
stringified. For the mapping {A: {pic_id: B, last_updated: 2}} the
round trip yields a mapping keyed by B (key set differs from {A}), and
the integer 2 comes back as the string 2. -/
theorem round_trip_counterexample :
    (load_cache_from_csv (save_cache_to_csv
        [("A", [("pic_id", CacheVal.strV "B"), ("last_updated", CacheVal.intV 2)])]
        ["last_updated"] "pic_id") "pic_id").bind (fun m => dictGet m "A") = none ∧
    (dictGet [("A", [("pic_id", CacheVal.strV "B"), ("last_updated", CacheVal.intV 2)])]
      "A").isSome = true ∧
    (load_cache_from_csv (save_cache_to_csv
        [("A", [("pic_id", CacheVal.strV "B"), ("last_updated", CacheVal.intV 2)])]
        ["last_updated"] "pic_id") "pic_id").bind
      (fun m => (dictGet m "B").bind (fun e2 => dictGet e2 "last_updated")) =
      some (CacheVal.strV "2") ∧
    CacheVal.strV "2" ≠ CacheVal.intV 2 :=
  ⟨by decide, by decide, by decide, by decide⟩

/-- C6 amended: for a cache mapping with pairwise-distinct keys (the
Python dict invariant) in which every record stores its own key, as a
string, under the key column, saving and then loading yields a mapping
with the same key set; each loaded record keeps the value of every
string-valued field that lies in the key-plus-configured-field list
(integer-valued fields come back stringified, and missing fields come
back as the empty string), and every field outside that list is
dropped. -/
theorem save_load_round_trip (cache : Dict (Dict CacheVal)) (fieldnames : List String)
    (key_name : String)
    (hnd : (cache.map Prod.fst).Nodup)
    (hcoh : ∀ p ∈ cache, dictGet p.2 key_name = some (CacheVal.strV p.1)) :
    ∃ m, load_cache_from_csv (save_cache_to_csv cache fieldnames key_name) key_name =
        some m ∧
      (∀ k, (dictGet m k).isSome = (dictGet cache k).isSome) ∧
      (∀ k e, dictGet cache k = some e →
        ∃ e2, dictGet m k = some e2 ∧
          (∀ f v, f ∈ key_name :: fieldnames → dictGet e f = some (CacheVal.strV v) →
            dictGet e2 f = some (CacheVal.strV v)) ∧
          (∀ f, f ∉ key_name :: fieldnames → dictGet e2 f = none)) := by
  have hperm : (List.insertionSort
      (fun a b : String × Dict CacheVal => a.1 ≤ b.1) cache).Perm cache :=
    List.perm_insertionSort _ _
  have hndS : ((List.insertionSort
      (fun a b : String × Dict CacheVal => a.1 ≤ b.1) cache).map Prod.fst).Nodup :=
    ((hperm.map Prod.fst).nodup_iff).mpr hnd
  have hcohS : ∀ p ∈ List.insertionSort
      (fun a b : String × Dict CacheVal => a.1 ≤ b.1) cache,
      dictGet p.2 key_name = some (CacheVal.strV p.1) :=
    fun p hp => hcoh p (hperm.mem_iff.mp hp)
  have hkeyrow : ∀ p ∈ List.insertionSort
      (fun a b : String × Dict CacheVal => a.1 ≤ b.1) cache,
      dictGet (rowDict (key_name :: fieldnames) (csvRow (key_name :: fieldnames) p.2))
        key_name = some (CacheVal.strV p.1) := by
    intro p hp
    rw [dictGet_rowDict_csvRow, if_pos (List.mem_cons_self _ _)]
    simp [csvCell, hcohS p hp, valToCSVString]
  have hload : load_cache_from_csv (save_cache_to_csv cache fieldnames key_name)
      key_name =
      some (((List.insertionSort (fun a b : String × Dict CacheVal => a.1 ≤ b.1)
          cache).map (fun p => (p.1, rowDict (key_name :: fieldnames)
            (csvRow (key_name :: fieldnames) p.2)))).foldl
        (fun c q => dictSet c q.1 q.2) []) := by
    unfold save_cache_to_csv load_cache_from_csv
    exact load_foldlM _ _ _ _ hkeyrow
  have hndM : ((((List.insertionSort (fun a b : String × Dict CacheVal => a.1 ≤ b.1)
      cache).map (fun p => (p.1, rowDict (key_name :: fieldnames)
        (csvRow (key_name :: fieldnames) p.2)))).map Prod.fst)).Nodup := by
    rw [List.map_map]
    exact hndS
  have hfindM : ∀ k, (((List.insertionSort (fun a b : String × Dict CacheVal => a.1 ≤ b.1)
      cache).map (fun p => (p.1, rowDict (key_name :: fieldnames)
        (csvRow (key_name :: fieldnames) p.2)))).find? (fun q => q.1 == k)) =
      ((List.insertionSort (fun a b : String × Dict CacheVal => a.1 ≤ b.1)
        cache).find? (fun p => p.1 == k)).map
        (fun p => (p.1, rowDict (key_name :: fieldnames)
          (csvRow (key_name :: fieldnames) p.2))) := by
    intro k
    rw [List.find?_map]
    rfl
  have hgetm : ∀ k, dictGet (((List.insertionSort
      (fun a b : String × Dict CacheVal => a.1 ≤ b.1) cache).map
      (fun p => (p.1, rowDict (key_name :: fieldnames)
        (csvRow (key_name :: fieldnames) p.2)))).foldl
      (fun c q => dictSet c q.1 q.2) []) k =
      (cache.find? (fun p => p.1 == k)).map
        (fun p => rowDict (key_name :: fieldnames) (csvRow (key_name :: fieldnames) p.2)) := by
    intro k
    have hfindS : (List.insertionSort (fun a b : String × Dict CacheVal => a.1 ≤ b.1)
        cache).find? (fun p => p.1 == k) = cache.find? (fun p => p.1 == k) :=
      find?_key_perm hperm k hndS
    cases hc : cache.find? (fun p => p.1 == k) with
    | none =>
      have h1 := hfindM k
      rw [hfindS, hc] at h1
      rw [foldl_dictSet_get_none _ _ _ h1]
      rfl
    | some p0 =>
      have h1 := hfindM k
      rw [hfindS, hc] at h1
      rw [foldl_dictSet_get_some _ _ _ _ hndM h1]
      rfl
  refine ⟨_, hload, ?_, ?_⟩
  · intro k
    rw [hgetm k]
    unfold dictGet
    rw [Option.isSome_map', Option.isSome_map']
  · intro k e he
    unfold dictGet at he
    obtain ⟨p0, hp0, hp02⟩ := Option.map_eq_some'.mp he
    subst hp02
    refine ⟨rowDict (key_name :: fieldnames) (csvRow (key_name :: fieldnames) p0.2),
      ?_, ?_, ?_⟩
    · rw [hgetm k, hp0]
      rfl
    · intro f v hf hev
      rw [dictGet_rowDict_csvRow, if_pos hf]
      simp [csvCell, hev, valToCSVString]
    · intro f hf
      rw [dictGet_rowDict_csvRow, if_neg hf]

/-- Witness for C6 at a one-record cache holding its own key and a
string title. -/
theorem save_load_round_trip_witness :
    ∃ m, load_cache_from_csv (save_cache_to_csv
        [("A", [("pic_id", CacheVal.strV "A"), ("title", CacheVal.strV "T")])]
        ["title"] "pic_id") "pic_id" = some m ∧
      (∀ k, (dictGet m k).isSome =
        (dictGet [("A", [("pic_id", CacheVal.strV "A"), ("title", CacheVal.strV "T")])]
          k).isSome) ∧
      (∀ k e, dictGet [("A", [("pic_id", CacheVal.strV "A"),
          ("title", CacheVal.strV "T")])] k = some e →
        ∃ e2, dictGet m k = some e2 ∧
          (∀ f v, f ∈ "pic_id" :: ["title"] → dictGet e f = some (CacheVal.strV v) →
            dictGet e2 f = some (CacheVal.strV v)) ∧
          (∀ f, f ∉ "pic_id" :: ["title"] → dictGet e2 f = none)) :=
  save_load_round_trip
    [("A", [("pic_id", CacheVal.strV "A"), ("title", CacheVal.strV "T")])]
    ["title"] "pic_id" (by decide) (by decide)
